import Mathlib

/-!
# trezorCipherKeyValue — verification of the spec's claims against the code

A shallow embedding of the `trezorCipherKeyValue` command-line utility
(three historical versions of `main.go` are in the repository; the newest
one, with askpass discovery and file input, is the primary model).
Bytes are modelled as `Nat` values (`< 256` where it matters), byte strings
as `List Nat`.  The device, the file system and the external prompt
programs are modelled as explicit parameters (an `Env` record), so the
orchestrator `run` is a pure function from configuration and environment to
the trace of steps it performed and its outcome.
-/

namespace TrezorCKV

/-! ## Hex encoding (Go `encoding/hex`, lowercase) -/

/-- One hex digit as a byte: `0..9 ↦ '0'..'9'` (48..57), `10..15 ↦ 'a'..'f'`
(97..102).  Mirrors Go `encoding/hex`'s lowercase `hextable`. -/
def hexDigit (n : Nat) : Nat :=
  if n < 10 then 48 + n else 87 + n

/-- The two hex digits of one byte, high nibble first, as in
`hex.EncodeToString`. -/
def hexEncodeByte (b : Nat) : List Nat :=
  [hexDigit (b / 16), hexDigit (b % 16)]

/-- Go `hex.EncodeToString(data)`: the lowercase hex text of `data`,
as a byte string. -/
def hexEncode (data : List Nat) : List Nat :=
  data.flatMap hexEncodeByte

/-! ## The decrypt-side padding codec

`main.go` (all versions), decrypt branch:

    if !*hexFlag { dataHexed = hex.EncodeToString(data) } else { dataHexed = string(data) }
    if len(dataHexed)%2 != 0 { panic(`internal error: len(dataHexed) is odd`) }
    for len(dataHexed)%32 != 0 { dataHexed += "00" }
    data = []byte(dataHexed)
-/

/-- The hex-text the decrypt branch works on: the input hex-encoded when the
hex flag is unset, the raw input bytes read as text otherwise. -/
def dataHexed (hexFlag : Bool) (data : List Nat) : List Nat :=
  if !hexFlag then hexEncode data else data

/-- The padding loop `for len(dataHexed)%32 != 0 { dataHexed += "00" }`,
with explicit fuel.  Each iteration appends the two bytes of the literal
`"00"` (byte 48 is the character `0`).  The loop only runs after the
odd-length panic check, so its argument always has even length, and then at
most 15 iterations are needed; fuel 16 therefore reproduces the Go loop
exactly on every reachable input. -/
def padLoop : Nat → List Nat → List Nat
  | 0, s => s
  | Nat.succ fuel, s =>
      if s.length % 32 = 0 then s else padLoop fuel (s ++ [48, 48])

/-- The whole decrypt-side pre-processing: hex transcoding, the odd-length
panic (modelled as `Except.error` carrying the panic message), and the
`"00"` padding loop. -/
def decryptPreprocess (hexFlag : Bool) (data : List Nat) : Except String (List Nat) :=
  let dh := dataHexed hexFlag data
  if dh.length % 2 ≠ 0 then
    Except.error "internal error: len(dataHexed) is odd"
  else
    Except.ok (padLoop 16 dh)

/-- The payload handed to the device cipher operation: the decrypt branch
runs the padding codec, the encrypt branch passes the acquired input
through unchanged. -/
def payloadForDevice (decryptFlag hexFlag : Bool) (data : List Nat) :
    Except String (List Nat) :=
  if decryptFlag then decryptPreprocess hexFlag data else Except.ok data

/-! ## Input acquisition (newest version, lines 112–129) -/

/-- `resolve_input`: the `TREZOR_CIPHER_VALUE` environment variable wins when
non-empty (Go `os.Getenv` yields `""` when unset, so set-and-non-empty is
exactly `len(data) != 0`); otherwise the sentinel `-` selects stdin, any
other path selects the named file.  Read failures are `Except.error`. -/
def resolveInput (envValue : List Nat) (inputValueFile : String)
    (stdinContents : Except String (List Nat))
    (fileContents : String → Except String (List Nat)) : Except String (List Nat) :=
  if envValue.length ≠ 0 then Except.ok envValue
  else if inputValueFile = "-" then stdinContents
  else fileContents inputValueFile

/-! ## Prompt backends -/

/-- The prompt request the device facade hands to a callback:
`(title, description, ok, cancel)`. -/
structure PromptRequest where
  title : String
  description : String
  ok : String
  cancel : String

/-- The confirmation callback installed with `SetGetConfirmFunc`: it always
returns `(false, nil)` — a fixed deny, no error, for every request. -/
def getConfirmFunc (_ : PromptRequest) : Bool × Option String :=
  (false, none)

/-- How an external command is spawned: program, argument list, and whether
the child inherits the caller's stdin / stderr. -/
structure CmdSpec where
  program : String
  args : List String
  stdinInherited : Bool
  stderrInherited : Bool
deriving DecidableEq, Repr

/-- The simple askpass variant's spawn (older version, lines 139–147):
`exec.Command(askpassPath, title)` with `cmd.Stdin = os.Stdin` and
`cmd.Stderr = os.Stderr`. -/
def simpleAskpassCmd (askpassPath title : String) : CmdSpec :=
  { program := askpassPath, args := [title], stdinInherited := true, stderrInherited := true }

/-- The secret the simple askpass variant returns: `cmd.Output()` — the
child's captured standard output, verbatim (no trimming in the code). -/
def simpleAskpassSecret (stdout : List Nat) : List Nat :=
  stdout

/-- Go `strings.Trim(s, cutset)`: removes the leading AND trailing bytes
that are in `cutset`. -/
def goTrim (cutset : List Nat) (s : List Nat) : List Nat :=
  (((s.dropWhile (cutset.contains ·)).reverse.dropWhile (cutset.contains ·)).reverse)

/-- The secret the PTY-relay askpass variant returns (newest version,
line 184): `strings.Trim(result.String(), "\n\r")` on the captured standard
output — newline (10) and carriage-return (13) bytes stripped from both
ends. -/
def ptyAskpassSecret (stdout : List Nat) : List Nat :=
  goTrim [10, 13] stdout

/-- What the claim about the askpass backends asserts the simple variant
does to the captured output (stated from the spec's words, for
comparison): trim trailing newline characters only. -/
def trimTrailingNewlinesClaimed (s : List Nat) : List Nat :=
  (s.reverse.dropWhile (· == 10)).reverse

/-! ## The result-status allow-list (versions using `CipherKeyValue`) -/

/-- The wire message types the status switch distinguishes. -/
inductive MessageType
  | Success
  | Failure
  | ButtonRequest
  | PinMatrixRequest
  | PassphraseRequest
  | CipheredKeyValue
  | Other (code : Nat)
deriving DecidableEq, Repr

/-- The status validation after `CipherKeyValue` (`main.go` lines 84–88):
the switch accepts exactly `MessageType_Success` and
`MessageType_CipheredKeyValue` (empty case body), every other message type
panics, so no output is written. -/
def finishRun (result : List Nat) (msgType : MessageType) : Except String (List Nat) :=
  match msgType with
  | MessageType.Success => Except.ok result
  | MessageType.CipheredKeyValue => Except.ok result
  | _ => Except.error "Unexpected message"

/-! ## The orchestrator (newest version's `main`, lines 78–237)

`run` mirrors `main`'s control flow step by step and records the trace of
steps performed, so ordering claims become statements about the trace. -/

/-- The command-line configuration of one invocation. -/
structure Config where
  helpFlag : Bool
  encryptFlag : Bool
  decryptFlag : Bool
  dummyDeviceFlag : Bool
  hexFlag : Bool
  usePinentryFlag : Bool
  askpassPath : String
  inputValueFile : String
  keyName : String

/-- The environment one invocation runs in: what exists on the system and
what the external collaborators answer. `deviceOp` is the wallet facade's
cipher operation, given the direction flag and the payload. -/
structure Env where
  cryptsetupAskpassExists : Bool
  systemdAskpassExists : Bool
  envSecretValue : List Nat
  stdinContents : Except String (List Nat)
  fileContents : String → Except String (List Nat)
  walletFound : Bool
  walletIsTrezor : Bool
  resetOk : Bool
  deviceOp : Bool → List Nat → Except String (List Nat)

/-- The observable steps of one run, in source order of `main`. -/
inductive Step
  | selectMode
  | askpassDiscovery
  | acquireInput
  | constructWallet
  | setPinCallback
  | setConfirmCallback
  | resetDevice
  | padPreprocess
  | cipherOp
  | validateStatus
  | hexReencode
  | writeOutput
deriving DecidableEq, Repr

/-- How one run ends: `os.Exit` with a code, a Go `panic`, or the result
bytes printed to stdout. -/
inductive Outcome
  | exited (code : Int)
  | panicked (msg : String)
  | output (bytes : List Nat)
deriving DecidableEq, Repr

/-- The tail of `main` from the cipher call on (lines 221–236): invoke the
device operation, check its error (exit 3 on failure), hex re-encode when
encrypting with the hex flag, print the result. -/
def afterReset (cfg : Config) (env : Env) (t : List Step) (payload : List Nat) :
    List Step × Outcome :=
  match env.deviceOp cfg.encryptFlag payload with
  | Except.error _ => (t ++ [Step.cipherOp, Step.validateStatus], Outcome.exited 3)
  | Except.ok result =>
      if cfg.encryptFlag && cfg.hexFlag then
        (t ++ [Step.cipherOp, Step.validateStatus, Step.hexReencode, Step.writeOutput],
          Outcome.output (hexEncode result))
      else
        (t ++ [Step.cipherOp, Step.validateStatus, Step.writeOutput],
          Outcome.output result)

/-- `main` of the newest version.  Control flow in source order:
help → mode check → askpass discovery (only when no explicit path was
given, and regardless of the pinentry flag; exit 6 when nothing is found) →
input acquisition (env var / stdin / file; exit -1 on read error) → wallet
construction (exit 1 when none found or not a Trezor) → pin and confirm
callbacks → device reset (exit 2 on failure) → decrypt-side padding
(panic on odd hex-text) → cipher operation → error check → optional hex
re-encoding → print. -/
def run (cfg : Config) (env : Env) : List Step × Outcome :=
  if cfg.helpFlag then ([], Outcome.exited 0)
  else if !cfg.encryptFlag && !cfg.decryptFlag then
    ([Step.selectMode], Outcome.exited 22)
  else
    let t1 := [Step.selectMode]
    if cfg.askpassPath = "" && !env.cryptsetupAskpassExists && !env.systemdAskpassExists then
      (t1 ++ [Step.askpassDiscovery], Outcome.exited 6)
    else
      let t2 := t1 ++ (if cfg.askpassPath = "" then [Step.askpassDiscovery] else [])
      match resolveInput env.envSecretValue cfg.inputValueFile
          env.stdinContents env.fileContents with
      | Except.error _ => (t2 ++ [Step.acquireInput], Outcome.exited (-1))
      | Except.ok data =>
          let t3 := t2 ++ [Step.acquireInput]
          if !cfg.dummyDeviceFlag && (!env.walletFound || !env.walletIsTrezor) then
            (t3 ++ [Step.constructWallet], Outcome.exited 1)
          else
            let t4 := t3 ++ [Step.constructWallet, Step.setPinCallback, Step.setConfirmCallback]
            if !env.resetOk then
              (t4 ++ [Step.resetDevice], Outcome.exited 2)
            else
              let t5 := t4 ++ [Step.resetDevice]
              if cfg.decryptFlag then
                match decryptPreprocess cfg.hexFlag data with
                | Except.error msg => (t5 ++ [Step.padPreprocess], Outcome.panicked msg)
                | Except.ok padded => afterReset cfg env (t5 ++ [Step.padPreprocess]) padded
              else
                afterReset cfg env t5 data

/-- The order in which the steps actually occur in `main` (a trace of `run`
is always a subsequence of this list). -/
def actualOrder : List Step :=
  [Step.selectMode, Step.askpassDiscovery, Step.acquireInput, Step.constructWallet,
   Step.setPinCallback, Step.setConfirmCallback, Step.resetDevice, Step.padPreprocess,
   Step.cipherOp, Step.validateStatus, Step.hexReencode, Step.writeOutput]

/-- The order the claim asserts: prompt-backend construction and the device
reset before input acquisition. -/
def claimedOrder : List Step :=
  [Step.selectMode, Step.askpassDiscovery, Step.constructWallet, Step.setPinCallback,
   Step.setConfirmCallback, Step.resetDevice, Step.acquireInput, Step.padPreprocess,
   Step.cipherOp, Step.validateStatus, Step.hexReencode, Step.writeOutput]

/-- A trace is consistent with a reference order when its steps are
pairwise strictly increasing by position in the reference list; this says
at once that no step repeats and that they occur in the reference order. -/
def OrderedBy (order tr : List Step) : Prop :=
  tr.Pairwise fun a b => order.indexOf a < order.indexOf b

instance (order tr : List Step) : Decidable (OrderedBy order tr) := by
  unfold OrderedBy
  infer_instance

/-- All traces `run` can produce: the three early exits, then every later
stage cut-off, each with and without the askpass-discovery step (it only
happens when no explicit askpass path was given). -/
def possibleTraces : List (List Step) :=
  let withD : Bool → List Step → List Step := fun d rest =>
    Step.selectMode :: ((if d then [Step.askpassDiscovery] else []) ++ rest)
  let rests : List (List Step) :=
    [[Step.acquireInput],
     [Step.acquireInput, Step.constructWallet],
     [Step.acquireInput, Step.constructWallet, Step.setPinCallback,
      Step.setConfirmCallback, Step.resetDevice],
     [Step.acquireInput, Step.constructWallet, Step.setPinCallback,
      Step.setConfirmCallback, Step.resetDevice, Step.padPreprocess],
     [Step.acquireInput, Step.constructWallet, Step.setPinCallback,
      Step.setConfirmCallback, Step.resetDevice, Step.padPreprocess,
      Step.cipherOp, Step.validateStatus],
     [Step.acquireInput, Step.constructWallet, Step.setPinCallback,
      Step.setConfirmCallback, Step.resetDevice, Step.padPreprocess,
      Step.cipherOp, Step.validateStatus, Step.hexReencode, Step.writeOutput],
     [Step.acquireInput, Step.constructWallet, Step.setPinCallback,
      Step.setConfirmCallback, Step.resetDevice, Step.padPreprocess,
      Step.cipherOp, Step.validateStatus, Step.writeOutput],
     [Step.acquireInput, Step.constructWallet, Step.setPinCallback,
      Step.setConfirmCallback, Step.resetDevice, Step.cipherOp, Step.validateStatus],
     [Step.acquireInput, Step.constructWallet, Step.setPinCallback,
      Step.setConfirmCallback, Step.resetDevice, Step.cipherOp, Step.validateStatus,
      Step.hexReencode, Step.writeOutput],
     [Step.acquireInput, Step.constructWallet, Step.setPinCallback,
      Step.setConfirmCallback, Step.resetDevice, Step.cipherOp, Step.validateStatus,
      Step.writeOutput]]
  [[], [Step.selectMode], [Step.selectMode, Step.askpassDiscovery]]
    ++ rests.map (withD true) ++ rests.map (withD false)

/-- A configuration exercising the full decrypt pipeline (dummy device,
hex input from stdin, askpass discovery). -/
def sampleCfg : Config :=
  { helpFlag := false, encryptFlag := false, decryptFlag := true, dummyDeviceFlag := true,
    hexFlag := true, usePinentryFlag := false, askpassPath := "", inputValueFile := "-",
    keyName := "key" }

/-- An environment where every collaborator succeeds. -/
def sampleEnv : Env :=
  { cryptsetupAskpassExists := true, systemdAskpassExists := false, envSecretValue := [],
    stdinContents := Except.ok [97, 98], fileContents := fun _ => Except.ok [],
    walletFound := true, walletIsTrezor := true, resetOk := true,
    deviceOp := fun _ d => Except.ok d }

/-- A configuration that asks for the pinentry backend explicitly and gives
no askpass path. -/
def pinentryCfg : Config :=
  { helpFlag := false, encryptFlag := true, decryptFlag := false, dummyDeviceFlag := true,
    hexFlag := false, usePinentryFlag := true, askpassPath := "", inputValueFile := "-",
    keyName := "key" }

/-- An environment where neither askpass utility exists but everything else
would succeed. -/
def noAskpassEnv : Env :=
  { cryptsetupAskpassExists := false, systemdAskpassExists := false, envSecretValue := [1],
    stdinContents := Except.ok [], fileContents := fun _ => Except.ok [],
    walletFound := true, walletIsTrezor := true, resetOk := true,
    deviceOp := fun _ d => Except.ok d }

/-- An environment whose stdin read fails. -/
def readErrorEnv : Env :=
  { cryptsetupAskpassExists := true, systemdAskpassExists := false, envSecretValue := [],
    stdinContents := Except.error "read failed", fileContents := fun _ => Except.ok [],
    walletFound := true, walletIsTrezor := true, resetOk := true,
    deviceOp := fun _ d => Except.ok d }

/-! ## Supporting lemmas -/

theorem hexEncode_nil : hexEncode [] = [] := rfl

theorem hexEncode_cons (b : Nat) (bs : List Nat) :
    hexEncode (b :: bs) = hexEncodeByte b ++ hexEncode bs := rfl

/-- Hex encoding doubles the length. -/
theorem hexEncode_length (data : List Nat) :
    (hexEncode data).length = 2 * data.length := by
  induction data with
  | nil => rfl
  | cons b bs ih =>
      simp [hexEncode_cons, hexEncodeByte, ih]
      omega

/-- A hex digit of a nibble is an ASCII lowercase hex character. -/
theorem hexDigit_range (n : Nat) (h : n < 16) :
    (48 ≤ hexDigit n ∧ hexDigit n ≤ 57) ∨ (97 ≤ hexDigit n ∧ hexDigit n ≤ 102) := by
  unfold hexDigit
  split <;> omega

/-- Every byte of a hex encoding is an ASCII lowercase hex character,
provided the input bytes are bytes. -/
theorem hexEncode_mem_range (data : List Nat) (hd : ∀ b ∈ data, b < 256) :
    ∀ c ∈ hexEncode data, (48 ≤ c ∧ c ≤ 57) ∨ (97 ≤ c ∧ c ≤ 102) := by
  induction data with
  | nil => simp [hexEncode_nil]
  | cons b bs ih =>
      intro c hc
      rw [hexEncode_cons, List.mem_append] at hc
      rcases hc with hc | hc
      · have hb : b < 256 := hd b (List.mem_cons_self _ _)
        simp only [hexEncodeByte, List.mem_cons, List.not_mem_nil, or_false] at hc
        rcases hc with rfl | rfl
        · exact hexDigit_range _ (by omega)
        · exact hexDigit_range _ (Nat.mod_lt _ (by omega))
      · exact ih (fun x hx => hd x (List.mem_cons_of_mem _ hx)) c hc

/-- The padding loop, on an even-length string and with enough fuel,
appends exactly `(32 - len % 32) % 32` copies of the byte `48` (`'0'`). -/
theorem padLoop_spec (fuel : Nat) :
    ∀ s : List Nat, s.length % 2 = 0 →
      (32 - s.length % 32) % 32 ≤ 2 * fuel →
      padLoop fuel s = s ++ List.replicate ((32 - s.length % 32) % 32) 48 := by
  induction fuel with
  | zero =>
      intro s _ hfuel
      have h0 : (32 - s.length % 32) % 32 = 0 := by omega
      simp [padLoop, h0]
  | succ fuel ih =>
      intro s heven hfuel
      by_cases h32 : s.length % 32 = 0
      · have h0 : (32 - s.length % 32) % 32 = 0 := by omega
        simp [padLoop, h32, h0]
      · have hstep : padLoop (fuel + 1) s = padLoop fuel (s ++ [48, 48]) := by
          simp [padLoop, h32]
        have hlen : (s ++ [48, 48]).length = s.length + 2 := by simp
        have heven' : (s ++ [48, 48]).length % 2 = 0 := by omega
        have hpad : (32 - s.length % 32) % 32
            = (32 - (s.length + 2) % 32) % 32 + 2 := by omega
        have hfuel' : (32 - (s ++ [48, 48]).length % 32) % 32 ≤ 2 * fuel := by
          rw [hlen]; omega
        rw [hstep, ih (s ++ [48, 48]) heven' hfuel', hlen, List.append_assoc]
        rw [hpad]
        congr 1

/-- `2k` copies of a byte are `k` copies of the two-byte pair. -/
theorem replicate_pair_join (k : Nat) (a : Nat) :
    List.replicate (2 * k) a = (List.replicate k [a, a]).flatten := by
  induction k with
  | zero => rfl
  | succ k ih =>
      have h2 : 2 * (k + 1) = 2 * k + 1 + 1 := by omega
      simp [h2, List.replicate_succ, ih]

/-- Full characterisation of a successful decrypt-side pre-processing:
the payload is the hex-text followed by the `"00"` padding. -/
theorem decryptPreprocess_ok (hexFlag : Bool) (data : List Nat)
    (heven : (dataHexed hexFlag data).length % 2 = 0) :
    decryptPreprocess hexFlag data =
      Except.ok (dataHexed hexFlag data ++
        List.replicate ((32 - (dataHexed hexFlag data).length % 32) % 32) 48) := by
  unfold decryptPreprocess
  have hfuel : (32 - (dataHexed hexFlag data).length % 32) % 32 ≤ 2 * 16 := by omega
  simp only [heven]
  simp [padLoop_spec 16 _ heven hfuel]

/-- The hex-text of the hex-flag-unset branch always has even length. -/
theorem dataHexed_false_even (data : List Nat) :
    (dataHexed false data).length % 2 = 0 := by
  simp [dataHexed, hexEncode_length]

/-- A successful decrypt-side pre-processing always produces a payload
whose length is a multiple of 32. -/
theorem decryptPreprocess_length (hexFlag : Bool) (data out : List Nat)
    (hok : decryptPreprocess hexFlag data = Except.ok out) :
    out.length % 32 = 0 := by
  by_cases heven : (dataHexed hexFlag data).length % 2 = 0
  · rw [decryptPreprocess_ok hexFlag data heven] at hok
    rw [Except.ok.injEq] at hok
    subst hok
    simp only [List.length_append, List.length_replicate]
    omega
  · unfold decryptPreprocess at hok
    simp [heven] at hok

/-- Every trace of `run` is one of the finitely many `possibleTraces`. -/
theorem run_trace_mem (cfg : Config) (env : Env) :
    (run cfg env).1 ∈ possibleTraces := by
  unfold run afterReset
  repeat' split
  all_goals exact of_decide_eq_true rfl

/-- Go `strings.Trim` decomposes its argument: the result is an infix, and
everything removed at either end is in the cutset. -/
theorem goTrim_decomp (cutset s : List Nat) :
    ∃ pre post, s = pre ++ goTrim cutset s ++ post
      ∧ (∀ c ∈ pre, cutset.contains c = true)
      ∧ (∀ c ∈ post, cutset.contains c = true) := by
  refine ⟨s.takeWhile (cutset.contains ·),
    ((s.dropWhile (cutset.contains ·)).reverse.takeWhile (cutset.contains ·)).reverse,
    ?_, ?_, ?_⟩
  · unfold goTrim
    conv_lhs => rw [← List.takeWhile_append_dropWhile (p := (cutset.contains ·)) (l := s)]
    rw [List.append_assoc]
    congr 1
    conv_lhs =>
      rw [← List.reverse_reverse (List.dropWhile (cutset.contains ·) s),
        ← List.takeWhile_append_dropWhile (p := (cutset.contains ·))
          (l := (List.dropWhile (cutset.contains ·) s).reverse)]
    rw [List.reverse_append]
  · intro c hc
    exact List.mem_takeWhile_imp hc
  · intro c hc
    rw [List.mem_reverse] at hc
    exact List.mem_takeWhile_imp hc

/-! ## Concrete evaluations (sanity anchors for the definitions) -/

/-- The codec on a concrete hex-flagged input: two bytes padded with
thirty `'0'` bytes up to 32. -/
theorem decryptPreprocess_eval_hexflag :
    decryptPreprocess true [97, 98] = Except.ok ([97, 98] ++ List.replicate 30 48) := rfl

/-- The codec on a concrete raw input: byte `0xab` becomes `"ab"` then is
padded to 32 characters. -/
theorem decryptPreprocess_eval_raw :
    decryptPreprocess false [171] = Except.ok ([97, 98] ++ List.replicate 30 48) := rfl

/-- A full successful decrypt run on the sample configuration: all steps in
source order, and the padded payload is echoed by the sample device. -/
theorem run_eval_sample :
    run sampleCfg sampleEnv =
      ([Step.selectMode, Step.askpassDiscovery, Step.acquireInput, Step.constructWallet,
        Step.setPinCallback, Step.setConfirmCallback, Step.resetDevice, Step.padPreprocess,
        Step.cipherOp, Step.validateStatus, Step.writeOutput],
       Outcome.output ([97, 98] ++ List.replicate 30 48)) := rfl

/-- A read failure ends the run right after input acquisition, with no
output written. -/
theorem run_eval_read_error :
    run sampleCfg readErrorEnv =
      ([Step.selectMode, Step.askpassDiscovery, Step.acquireInput], Outcome.exited (-1)) := rfl

/-! ## The claims -/

/-- C1: the decrypt-side normalization always produces a payload whose
length is a multiple of 32 characters; with the hex flag unset it is
exactly the lowercase hex encoding of the input (length `2L`) followed by
`(32 - 2L % 32) % 32` appended characters, all of them `"00"` pairs
(byte 48 is the character `0`). -/
theorem decrypt_padding_c1 (hexFlag : Bool) (data out : List Nat) :
    (decryptPreprocess hexFlag data = Except.ok out → out.length % 32 = 0)
    ∧ decryptPreprocess false data =
        Except.ok (hexEncode data ++
          List.replicate ((32 - (2 * data.length) % 32) % 32) 48)
    ∧ (hexEncode data).length = 2 * data.length
    ∧ List.replicate ((32 - (2 * data.length) % 32) % 32) 48
        = (List.replicate (((32 - (2 * data.length) % 32) % 32) / 2) [48, 48]).flatten := by
  refine ⟨decryptPreprocess_length hexFlag data out, ?_, hexEncode_length data, ?_⟩
  · have h := decryptPreprocess_ok false data (dataHexed_false_even data)
    rw [h]
    simp [dataHexed, hexEncode_length]
  · obtain ⟨k, hk⟩ : ∃ k, (32 - (2 * data.length) % 32) % 32 = 2 * k :=
      ⟨((32 - (2 * data.length) % 32) % 32) / 2, by omega⟩
    rw [hk, replicate_pair_join]
    have h2 : 2 * k / 2 = k := by omega
    rw [h2]

/-- C2 (amended): on the decrypt side every payload handed to the device
has length a multiple of 16 (indeed of 32), but on the encrypt side the
payload is the acquired input passed through unchanged, with no length
alignment in this layer. -/
theorem payload_alignment_c2 (hexFlag : Bool) (data out : List Nat) :
    (payloadForDevice true hexFlag data = Except.ok out → out.length % 16 = 0)
    ∧ payloadForDevice false hexFlag data = Except.ok data := by
  constructor
  · intro hok
    have h32 := decryptPreprocess_length hexFlag data out
      (by simpa [payloadForDevice] using hok)
    omega
  · simp [payloadForDevice]

/-- C2 counterexample: in the encrypt direction a 1-byte input is handed
to the device as a 1-byte payload, whose length is not a multiple of 16. -/
theorem payload_alignment_c2_cex :
    payloadForDevice false false [0] = Except.ok [0]
    ∧ ([0] : List Nat).length % 16 ≠ 0 := by
  exact ⟨rfl, by decide⟩

/-- C6: the decrypt branch aborts fatally (with the odd-length panic)
exactly when the hex-text has odd length, and with the hex flag unset
this never happens, because hex encoding always has even length. -/
theorem decrypt_odd_fatal_c6 (hexFlag : Bool) (data : List Nat) :
    (decryptPreprocess hexFlag data).isOk = ((dataHexed hexFlag data).length % 2 == 0)
    ∧ ((dataHexed hexFlag data).length % 2 = 1 →
        decryptPreprocess hexFlag data =
          Except.error "internal error: len(dataHexed) is odd")
    ∧ (decryptPreprocess false data).isOk = true := by
  refine ⟨?_, ?_, ?_⟩
  · unfold decryptPreprocess
    by_cases h : (dataHexed hexFlag data).length % 2 = 0
    · have hb : ((dataHexed hexFlag data).length % 2 == 0) = true := by simpa using h
      simp [h, hb, Except.isOk, Except.toBool]
    · have hb : ((dataHexed hexFlag data).length % 2 == 0) = false := by simpa using h
      simp [h, hb, Except.isOk, Except.toBool]
  · intro hodd
    unfold decryptPreprocess
    simp [hodd]
  · rw [decryptPreprocess_ok false data (dataHexed_false_even data)]
    rfl

/-- C7: the confirmation callback registered with the device facade
returns the fixed deny answer `(false, nil)` for every prompt request. -/
theorem confirm_always_deny_c7 (req : PromptRequest) :
    getConfirmFunc req = (false, none) := rfl

/-- C8: the result status is accepted exactly when it is `Success` or
`CipheredKeyValue`; any other status is the fatal protocol-violation
panic, so no output is produced. -/
theorem status_allowlist_c8 (result : List Nat) (m : MessageType) :
    ((finishRun result m).isOk = true ↔
      (m = MessageType.Success ∨ m = MessageType.CipheredKeyValue))
    ∧ ((finishRun result m).isOk = true → finishRun result m = Except.ok result)
    ∧ ((finishRun result m).isOk = false →
        finishRun result m = Except.error "Unexpected message") := by
  cases m <;> simp [finishRun, Except.isOk, Except.toBool]

/-- C3 counterexample: on a full successful run, the trace is not ordered
by the claimed sequence — input acquisition happens before the prompt
backend is constructed and before the device reset, not after. -/
theorem run_order_c3_cex :
    OrderedBy claimedOrder (run sampleCfg sampleEnv).1 = False := by
  have h : (run sampleCfg sampleEnv).1 =
      [Step.selectMode, Step.askpassDiscovery, Step.acquireInput, Step.constructWallet,
       Step.setPinCallback, Step.setConfirmCallback, Step.resetDevice, Step.padPreprocess,
       Step.cipherOp, Step.validateStatus, Step.writeOutput] := rfl
  refine eq_false ?_
  rw [h]
  decide

/-- C3 (amended): every run's trace follows the strict source order —
select mode, askpass discovery (when no explicit path), acquire input,
construct wallet, set the pin and confirm callbacks, reset the device,
decrypt-side padding, cipher operation, status validation, optional hex
re-encoding, write output — with no step repeated; whenever the cipher
operation happens, the device session was reset exactly once, before it. -/
theorem run_order_c3 (cfg : Config) (env : Env) :
    OrderedBy actualOrder (run cfg env).1
    ∧ (Step.cipherOp ∈ (run cfg env).1 →
        (run cfg env).1.count Step.resetDevice = 1
        ∧ (run cfg env).1.indexOf Step.resetDevice
            < (run cfg env).1.indexOf Step.cipherOp) := by
  have hall : ∀ t ∈ possibleTraces, OrderedBy actualOrder t
      ∧ (Step.cipherOp ∈ t → t.count Step.resetDevice = 1
          ∧ t.indexOf Step.resetDevice < t.indexOf Step.cipherOp) := by decide
  exact hall _ (run_trace_mem cfg env)

/-- C4: the environment variable wins when non-empty (file and stdin are
not even consulted: the result does not depend on them), the sentinel `-`
selects stdin, any other path selects the named file, and a read error
means the run ends without writing any output. -/
theorem input_priority_c4 (envValue : List Nat) (path : String)
    (stdin : Except String (List Nat)) (fileF : String → Except String (List Nat))
    (cfg : Config) (env : Env) (bytes : List Nat) :
    (envValue ≠ [] → resolveInput envValue path stdin fileF = Except.ok envValue)
    ∧ (envValue = [] → path = "-" → resolveInput envValue path stdin fileF = stdin)
    ∧ (envValue = [] → path ≠ "-" → resolveInput envValue path stdin fileF = fileF path)
    ∧ ((resolveInput env.envSecretValue cfg.inputValueFile env.stdinContents
          env.fileContents).isOk = false →
        (run cfg env).2 ≠ Outcome.output bytes) := by
  refine ⟨?_, ?_, ?_, ?_⟩
  · intro h
    simp [resolveInput, List.length_eq_zero, h]
  · intro h1 h2
    simp [resolveInput, h1, h2]
  · intro h1 h2
    simp [resolveInput, h1, h2]
  · intro herr
    unfold run afterReset
    repeat' split
    all_goals simp_all [Except.isOk, Except.toBool]

/-- C5: with `--use-pinentry` set and no explicit askpass path, on a system
with neither askpass utility, the run still exits with the dedicated
"no askpass found" code 6 — before any device interaction (no reset, no
cipher operation in the trace) — although the claim (and the code's own
diagnostic) says the pinentry flag takes precedence over discovery. -/
theorem askpass_gate_c5 :
    pinentryCfg.usePinentryFlag = true
    ∧ run pinentryCfg noAskpassEnv
        = ([Step.selectMode, Step.askpassDiscovery], Outcome.exited 6)
    ∧ Step.resetDevice ∉ (run pinentryCfg noAskpassEnv).1
    ∧ Step.cipherOp ∉ (run pinentryCfg noAskpassEnv).1 := by
  refine ⟨rfl, rfl, ?_, ?_⟩ <;> decide

/-- C9 counterexample: the simple askpass variant returns the captured
standard output verbatim — a trailing newline (byte 10) is NOT trimmed,
unlike what the claim states. -/
theorem askpass_secret_c9_cex :
    (simpleAskpassSecret [97, 10] = trimTrailingNewlinesClaimed [97, 10]) = False := by
  refine eq_false ?_
  decide

/-- C9 (amended): the simple variant spawns the program with the prompt
title as its single argument, inheriting stdin and stderr, and returns the
captured standard output verbatim (no trimming); the PTY-relay variant
strips newline and carriage-return bytes from BOTH ends of the captured
output, the remainder being a contiguous infix of it. -/
theorem askpass_secret_c9 (stdout : List Nat) (path title : String) :
    simpleAskpassSecret stdout = stdout
    ∧ simpleAskpassCmd path title =
        { program := path, args := [title], stdinInherited := true, stderrInherited := true }
    ∧ ∃ pre post, stdout = pre ++ ptyAskpassSecret stdout ++ post
        ∧ (∀ c ∈ pre, c = 10 ∨ c = 13)
        ∧ (∀ c ∈ post, c = 10 ∨ c = 13) := by
  refine ⟨rfl, rfl, ?_⟩
  obtain ⟨pre, post, heq, hpre, hpost⟩ := goTrim_decomp [10, 13] stdout
  refine ⟨pre, post, heq, ?_, ?_⟩
  · intro c hc
    have h := hpre c hc
    simpa using h
  · intro c hc
    have h := hpost c hc
    simpa using h

/-- C10 counterexample: with the hex flag set, a validity check IS applied
to the input on decrypt — the single (non-hex) byte 255 is rejected by the
odd-length panic instead of being forwarded to the device. -/
theorem decrypt_forwarding_c10_cex :
    payloadForDevice true true [255]
      = Except.error "internal error: len(dataHexed) is odd" := rfl

/-- C10 (amended): on decrypt with the hex flag unset every payload byte is
an ASCII lowercase hex character; with the hex flag set no per-byte
validity check is applied — any even-length input, hex or not, is
forwarded unchanged apart from the appended `"00"` padding — but an
odd-length input hits the fatal length check and nothing is forwarded. -/
theorem decrypt_forwarding_c10 (data out : List Nat) :
    ((∀ b ∈ data, b < 256) → payloadForDevice true false data = Except.ok out →
      ∀ c ∈ out, (48 ≤ c ∧ c ≤ 57) ∨ (97 ≤ c ∧ c ≤ 102))
    ∧ (data.length % 2 = 0 →
        payloadForDevice true true data =
          Except.ok (data ++ List.replicate ((32 - data.length % 32) % 32) 48)) := by
  constructor
  · intro hbytes hok c hc
    have h := decryptPreprocess_ok false data (dataHexed_false_even data)
    rw [payloadForDevice, if_pos rfl] at hok
    · rw [h, Except.ok.injEq] at hok
      subst hok
      rw [List.mem_append] at hc
      rcases hc with hc | hc
      · have hc' : c ∈ hexEncode data := by
          simpa [dataHexed] using hc
        exact hexEncode_mem_range data hbytes c hc'
      · have hc' : c = 48 := List.eq_of_mem_replicate hc
        omega
  · intro heven
    have heven' : (dataHexed true data).length % 2 = 0 := by
      simpa [dataHexed] using heven
    rw [payloadForDevice, if_pos rfl, decryptPreprocess_ok true data heven']
    simp [dataHexed]

end TrezorCKV
